import Mathlib

/-!
# Verification of the `qto_ifc-msg` IFC consumer pipeline

Shallow embedding of `src/qto_ifc-msg/src/index.ts`: the per-message Kafka
handler that parses a storage key from the message value, retrieves the file
and its metadata from the object store, assembles an `IFCData` record and
forwards it downstream.  The external collaborators (`getFile`,
`getFileMetadata`, `sendIFCFile` from the minio/send modules, whose sources
are not part of this repository snapshot) are modelled as an explicit
environment of oracles whose every outcome (success, not-found, thrown
error) is quantified over.  The handler is modelled as a function producing
the list of observable events (log lines, retrieval calls, send calls) plus
an optional uncaught exception, mirroring the JavaScript control flow
including the `try`/`catch` boundary and JavaScript string `split`/`pop`
semantics.
-/

namespace QtoIfcMsg

/-- File content bytes (a JS `Buffer` is a byte sequence). -/
abbrev Bytes := List Nat

/-- The metadata record returned by `getFileMetadata`.  The handler reads
exactly the fields `project`, `filename` and `timestamp`; `extra` models any
additional fields the object-store metadata record may carry, which the
handler never inspects. -/
structure FileMetadata where
  project : String
  filename : String
  timestamp : String
  extra : List (String × String) := []
deriving DecidableEq, Repr

/-- The assembled record passed to `sendIFCFile` (the `IFCData` type of
`src/qto_ifc-msg/src/types.ts` as used at the assembly site in `index.ts`
lines 45–52): exactly the four fields project, filename, timestamp, file. -/
structure IFCData where
  project : String
  filename : String
  timestamp : String
  file : Bytes
deriving DecidableEq, Repr

/-- Observable events emitted by one handler invocation. -/
inductive Event where
  | infoLog (msg : String)
  | getFileCall (key : String)
  | getMetadataCall (key : String)
  | sendCall (record : IFCData)
  | errorLog (msg : String)
deriving DecidableEq, Repr

/-- Outcome of one external asynchronous call: `.error e` models the promise
rejecting (a thrown error `e`), `.ok v` models normal resolution. -/
abbrev Outcome (α : Type) := Except String α

/-- The environment of external collaborators used by the handler.
`getFile`/`getFileMetadata` resolve to `none` when the object store has no
content/metadata for the key (the JS functions resolve to a null-ish value
there, cf. the `if (!file)` check in `index.ts`), and may also reject.
`sendIFCFile` resolves to unit or rejects.  The bucket argument is the fixed
`IFC_BUCKET_NAME`, so it is left implicit in the oracles. -/
structure Env where
  getFile : String → Outcome (Option Bytes)
  getFileMetadata : String → Outcome (Option FileMetadata)
  sendIFCFile : IFCData → Outcome Unit

/-- JavaScript `v.split("/")` at the character-list level: splits on `'/'`,
keeping empty segments, and yields `[[]]` on the empty string (JS
`"".split("/") === [""]`).  Never returns an empty array. -/
def jsSplit : List Char → List (List Char)
  | [] => [[]]
  | c :: rest =>
    if c = '/' then [] :: jsSplit rest
    else
      match jsSplit rest with
      | [] => [[c]]
      | s :: ss => (c :: s) :: ss

/-- `downloadLink.split("/").pop()` (`index.ts` line 37): JS `pop` on the
never-empty result of `split` returns its last element. -/
def jsSplitPop (v : String) : String :=
  String.mk ((jsSplit v.data).getLastD [])

/-- The body of the `try` block (`index.ts` lines 34–52), from the info log
through the send.  Returns the events emitted so far plus `some e` when some
step threw `e` (to be caught by the handler's `catch`), `none` when the body
ran to completion.  When `getFileMetadata` resolves null-ish, the field
access `metadata.project` on line 46 throws a `TypeError`, modelled here as
a thrown error. -/
def tryBody (env : Env) (v : String) : List Event × Option String :=
  let t0 := [Event.infoLog ("Processing Kafka message: " ++ v)]
  let fileID := jsSplitPop v
  match env.getFile fileID with
  | .error e => (t0 ++ [Event.getFileCall fileID], some e)
  | .ok none =>
      (t0 ++ [Event.getFileCall fileID,
              Event.errorLog ("File " ++ fileID ++ " not found")], none)
  | .ok (some file) =>
    let t1 := t0 ++ [Event.getFileCall fileID]
    match env.getFileMetadata fileID with
    | .error e => (t1 ++ [Event.getMetadataCall fileID], some e)
    | .ok none =>
        (t1 ++ [Event.getMetadataCall fileID],
         some "TypeError: cannot read properties of null")
    | .ok (some metadata) =>
      let ifcData : IFCData :=
        { project := metadata.project
          filename := metadata.filename
          timestamp := metadata.timestamp
          file := file }
      match env.sendIFCFile ifcData with
      | .error e =>
          (t1 ++ [Event.getMetadataCall fileID, Event.sendCall ifcData], some e)
      | .ok _ =>
          (t1 ++ [Event.getMetadataCall fileID, Event.sendCall ifcData], none)

/-- One invocation of the message handler (`index.ts` lines 32–57): the
`if (message.value)` guard (absent or empty value is falsy, so the body is
skipped), then the `try` body, then the `catch` clause converting any thrown
error into an error log.  The second component is an exception escaping the
handler invocation itself. -/
def handleMessage (env : Env) (value : Option String) : List Event × Option String :=
  match value with
  | none => ([], none)
  | some v =>
    if v = "" then ([], none)
    else
      match tryBody env v with
      | (t, some e) =>
          (t ++ [Event.errorLog ("Error processing Kafka message: " ++ e)], none)
      | (t, none) => (t, none)

/-- The consumer loop: the broker delivers `msgs` in order and the handler
is invoked once per delivery (`startKafkaConsumer`'s callback).  The handler
keeps no state between invocations, so the run is the per-message traces. -/
def runConsumer (env : Env) (msgs : List (Option String)) : List (List Event) :=
  msgs.map (fun m => (handleMessage env m).1)

/-- The records passed to `sendIFCFile` within a trace. -/
def sends (t : List Event) : List IFCData :=
  t.filterMap (fun e => match e with | .sendCall r => some r | _ => none)

/-- The error-log lines within a trace. -/
def errorLogs (t : List Event) : List String :=
  t.filterMap (fun e => match e with | .errorLog m => some m | _ => none)

/-- The keys passed to `getFile` within a trace. -/
def getFileCalls (t : List Event) : List String :=
  t.filterMap (fun e => match e with | .getFileCall k => some k | _ => none)

/-- The keys passed to `getFileMetadata` within a trace. -/
def getMetadataCalls (t : List Event) : List String :=
  t.filterMap (fun e => match e with | .getMetadataCall k => some k | _ => none)

/-! ## Lemmas about JavaScript string splitting -/

/-- `split` never returns an empty array. -/
theorem jsSplit_ne_nil (cs : List Char) : jsSplit cs ≠ [] := by
  cases cs with
  | nil => simp [jsSplit]
  | cons c rest =>
    rw [jsSplit]
    by_cases hc : c = '/'
    · simp [hc]
    · simp only [if_neg hc]
      cases jsSplit rest with
      | nil => simp
      | cons s ss => simp

/-- On a slash-free string, `split` returns the one-element array holding
the whole string. -/
theorem jsSplit_of_not_mem (cs : List Char) (h : '/' ∉ cs) : jsSplit cs = [cs] := by
  induction cs with
  | nil => rfl
  | cons c rest ih =>
    rw [jsSplit]
    have hc : ¬ c = '/' := fun hc => h (hc ▸ List.mem_cons_self c rest)
    rw [if_neg hc, ih (fun hm => h (List.mem_cons_of_mem c hm))]

/-- A string containing a slash splits into at least two segments. -/
theorem jsSplit_length_ge_two (cs : List Char) (h : '/' ∈ cs) :
    2 ≤ (jsSplit cs).length := by
  induction cs with
  | nil => cases h
  | cons c rest ih =>
    rw [jsSplit]
    by_cases hc : c = '/'
    · rw [if_pos hc]
      have := jsSplit_ne_nil rest
      cases hrest : jsSplit rest with
      | nil => exact absurd hrest this
      | cons s ss => simp
    · rw [if_neg hc]
      have hmem : '/' ∈ rest := by
        rcases List.mem_cons.mp h with h1 | h1
        · exact absurd h1.symm hc
        · exact h1
      have := ih hmem
      cases hrest : jsSplit rest with
      | nil => exact absurd hrest (jsSplit_ne_nil rest)
      | cons s ss =>
        rw [hrest] at this
        simpa using this

/-- The default value of `getLastD` is irrelevant on a non-empty list. -/
theorem getLastD_congr {α : Type} (l : List α) (h : l ≠ []) (d d' : α) :
    l.getLastD d = l.getLastD d' := by
  cases l with
  | nil => exact absurd rfl h
  | cons a t =>
    rw [List.getLastD_cons, List.getLastD_cons]

/-- `getLastD` of a one-element list is that element. -/
theorem getLastD_single {α : Type} (a d : α) : [a].getLastD d = a := by
  rw [List.getLastD_cons, List.getLastD_nil]

/-- The last element of `jsSplit cs` is the slash-free suffix of `cs` that
follows the last `'/'` (all of `cs` when there is no slash). -/
theorem jsSplit_getLastD_spec (cs : List Char) :
    '/' ∉ (jsSplit cs).getLastD [] ∧
      (cs = (jsSplit cs).getLastD [] ∨
        ∃ p, cs = p ++ '/' :: (jsSplit cs).getLastD []) := by
  induction cs with
  | nil => rw [jsSplit, getLastD_single]; simp
  | cons c rest ih =>
    by_cases hc : c = '/'
    · subst hc
      rw [jsSplit, if_pos rfl, List.getLastD_cons]
      refine ⟨ih.1, Or.inr ?_⟩
      rcases ih.2 with h | ⟨p, hp⟩
      · exact ⟨[], by rw [← h]; rfl⟩
      · exact ⟨'/' :: p, by rw [List.cons_append, ← hp]⟩
    · rw [jsSplit, if_neg hc]
      cases hsplit : jsSplit rest with
      | nil => exact absurd hsplit (jsSplit_ne_nil rest)
      | cons s ss =>
        rw [hsplit] at ih
        cases ss with
        | nil =>
          -- one segment: `rest` is slash-free and equal to `s`
          have hrest : '/' ∉ rest := by
            intro hmem
            have h2 := jsSplit_length_ge_two rest hmem
            rw [hsplit] at h2
            simp at h2
          have hs : s = rest := by
            have h1 := jsSplit_of_not_mem rest hrest
            rw [hsplit] at h1
            simpa using h1
          rw [getLastD_single]
          refine ⟨?_, Or.inl (by rw [hs])⟩
          intro hmem
          rcases List.mem_cons.mp hmem with h | h
          · exact hc h.symm
          · exact hrest (hs ▸ h)
        | cons s' ss' =>
          -- at least two segments: `rest` contains a slash
          have hkey : ((c :: s) :: s' :: ss').getLastD [] =
              (s :: s' :: ss').getLastD [] := by
            have h1 : ((c :: s) :: s' :: ss').getLastD [] =
                (s' :: ss').getLastD (c :: s) := List.getLastD_cons _ _ _
            have h2 : (s :: s' :: ss').getLastD [] =
                (s' :: ss').getLastD s := List.getLastD_cons _ _ _
            rw [h1, h2]
            exact getLastD_congr (s' :: ss') (List.cons_ne_nil s' ss') _ _
          rw [hkey]
          have hrest : '/' ∈ rest := by
            by_contra hmem
            have h1 := jsSplit_of_not_mem rest hmem
            rw [hsplit] at h1
            have hlen := congrArg List.length h1
            simp at hlen
          refine ⟨ih.1, Or.inr ?_⟩
          rcases ih.2 with h | ⟨p, hp⟩
          · exact absurd (h ▸ hrest) ih.1
          · exact ⟨c :: p, by rw [List.cons_append, ← hp]⟩

example : jsSplitPop "s3://bucket/abc123" = "abc123" := rfl

example : jsSplitPop "s3://bucket/" = "" := rfl

example : jsSplitPop "abc" = "abc" := rfl

/-! ## The successful path through the handler -/

/-- When the derived key has both content and metadata present, one handler
invocation emits the info log, the two retrieval calls and the send call
carrying the assembled record, followed by the catch log exactly when the
send throws. -/
theorem handleMessage_success (env : Env) (v : String) (hv : ¬ v = "")
    (B : Bytes) (md : FileMetadata)
    (hf : env.getFile (jsSplitPop v) = .ok (some B))
    (hm : env.getFileMetadata (jsSplitPop v) = .ok (some md)) :
    (handleMessage env (some v)).1 =
      [Event.infoLog ("Processing Kafka message: " ++ v),
       Event.getFileCall (jsSplitPop v),
       Event.getMetadataCall (jsSplitPop v),
       Event.sendCall ⟨md.project, md.filename, md.timestamp, B⟩] ++
      (match env.sendIFCFile ⟨md.project, md.filename, md.timestamp, B⟩ with
       | .ok _ => []
       | .error e => [Event.errorLog ("Error processing Kafka message: " ++ e)]) := by
  cases hs : env.sendIFCFile ⟨md.project, md.filename, md.timestamp, B⟩ with
  | ok u => simp [handleMessage, tryBody, hv, hf, hm, hs]
  | error e => simp [handleMessage, tryBody, hv, hf, hm, hs]

/-! ## Concrete environments used as witnesses -/

/-- The store of the success scenario: key `"abc123"` has content `[66]`
and the scenario metadata; every other key is absent; sends succeed. -/
def envScenario : Env :=
  { getFile := fun k => if k = "abc123" then .ok (some [66]) else .ok none
    getFileMetadata := fun k =>
      if k = "abc123" then
        .ok (some { project := "P1", filename := "model.ifc",
                    timestamp := "2024-01-01T00:00:00Z" })
      else .ok none
    sendIFCFile := fun _ => .ok () }

/-- A store with no objects at all. -/
def envMissing : Env :=
  { getFile := fun _ => .ok none
    getFileMetadata := fun _ => .ok none
    sendIFCFile := fun _ => .ok () }

/-- A store whose content is present for every key but whose metadata is
always absent, and whose extra-field behaviour exercises inconsistency. -/
def envNoMetadata : Env :=
  { getFile := fun _ => .ok (some [7])
    getFileMetadata := fun _ => .ok none
    sendIFCFile := fun _ => .ok () }

/-! ## Claim theorems -/

/-- C1: whenever the derived storage key yields both present content and
present metadata and the downstream send succeeds, the handler sends
exactly one Forwarded Record whose fields equal the metadata's project,
filename and timestamp plus the retrieved content. -/
theorem C1_success_sends_exactly_one (env : Env) (v : String) (B : Bytes)
    (md : FileMetadata) (hv : ¬ v = "")
    (hf : env.getFile (jsSplitPop v) = .ok (some B))
    (hm : env.getFileMetadata (jsSplitPop v) = .ok (some md))
    (hs : env.sendIFCFile ⟨md.project, md.filename, md.timestamp, B⟩ = .ok ()) :
    sends (handleMessage env (some v)).1 =
      [⟨md.project, md.filename, md.timestamp, B⟩] := by
  rw [handleMessage_success env v hv B md hf hm, hs]
  simp [sends]

/-- C1 witness: message value `"s3://bucket/abc123"` against `envScenario`
(content `[66]`, metadata `{P1, model.ifc, 2024-01-01T00:00:00Z}`) yields
exactly the sent record of the scenario. -/
theorem C1_success_sends_exactly_one_witness :
    sends (handleMessage envScenario (some "s3://bucket/abc123")).1 =
      [⟨"P1", "model.ifc", "2024-01-01T00:00:00Z", [66]⟩] :=
  C1_success_sends_exactly_one envScenario "s3://bucket/abc123" [66]
    { project := "P1", filename := "model.ifc",
      timestamp := "2024-01-01T00:00:00Z" }
    (by decide) rfl rfl rfl

/-- C2: for every environment (hence every outcome of the retrieval and
send calls, including any of them throwing) and every message, the handler
invocation lets no exception escape to the consumer loop, and the consumer
run still processes each subsequent message. -/
theorem C2_handler_never_throws (env : Env) (value : Option String) :
    (handleMessage env value).2 = none ∧
      ∀ msgs : List (Option String),
        runConsumer env (value :: msgs) =
          (handleMessage env value).1 :: runConsumer env msgs := by
  refine ⟨?_, fun msgs => rfl⟩
  match value with
  | none => rfl
  | some v =>
    by_cases hv : v = ""
    · simp [handleMessage, hv]
    · rcases ht : tryBody env v with ⟨t, exc⟩
      cases exc <;> simp [handleMessage, hv, ht]

/-- C3: when the store has no content for the derived key, the handler
makes no metadata fetch and no send call, and emits exactly one error log
naming the key. -/
theorem C3_content_absent_aborts (env : Env) (v : String) (hv : ¬ v = "")
    (hf : env.getFile (jsSplitPop v) = .ok none) :
    sends (handleMessage env (some v)).1 = [] ∧
      getMetadataCalls (handleMessage env (some v)).1 = [] ∧
      errorLogs (handleMessage env (some v)).1 =
        ["File " ++ jsSplitPop v ++ " not found"] := by
  simp [handleMessage, tryBody, hv, hf, sends, getMetadataCalls, errorLogs]

/-- C3 witness: value `"s3://bucket/missing"` against the empty store
yields zero sends, zero metadata fetches, and the single not-found log
containing `"missing"`. -/
theorem C3_content_absent_aborts_witness :
    sends (handleMessage envMissing (some "s3://bucket/missing")).1 = [] ∧
      getMetadataCalls (handleMessage envMissing (some "s3://bucket/missing")).1 = [] ∧
      errorLogs (handleMessage envMissing (some "s3://bucket/missing")).1 =
        ["File missing not found"] :=
  C3_content_absent_aborts envMissing "s3://bucket/missing" (by decide) rfl

/-- C4: when content is present for the derived key but metadata is absent,
processing aborts as in the content-absence case: no send call occurs and
exactly one error log is emitted (here via the caught field access on the
null-ish metadata). -/
theorem C4_metadata_absent_aborts (env : Env) (v : String) (B : Bytes)
    (hv : ¬ v = "")
    (hf : env.getFile (jsSplitPop v) = .ok (some B))
    (hm : env.getFileMetadata (jsSplitPop v) = .ok none) :
    sends (handleMessage env (some v)).1 = [] ∧
      (errorLogs (handleMessage env (some v)).1).length = 1 := by
  simp [handleMessage, tryBody, hv, hf, hm, sends, errorLogs]

/-- C4 witness: value `"s3://bucket/abc123"` against a store with content
but no metadata yields zero sends and one error log. -/
theorem C4_metadata_absent_aborts_witness :
    sends (handleMessage envNoMetadata (some "s3://bucket/abc123")).1 = [] ∧
      (errorLogs (handleMessage envNoMetadata (some "s3://bucket/abc123")).1).length = 1 :=
  C4_metadata_absent_aborts envNoMetadata "s3://bucket/abc123" [7]
    (by decide) rfl rfl

/-- C5: a message with absent or empty value is a no-op: the handler emits
no event at all (no retrieval, no send, no error log) and no exception. -/
theorem C5_empty_message_noop (env : Env) :
    handleMessage env none = ([], none) ∧
      handleMessage env (some "") = ([], none) :=
  ⟨rfl, rfl⟩

/-- C6: for every message value the derived storage key
(`split("/").pop()`) is the final path segment — it contains no slash, and
the value either equals it (no slash anywhere) or ends in `'/'` followed by
it; the derivation is a total function of the string, so it throws on no
input. -/
theorem C6_key_is_final_path_segment (v : String) :
    '/' ∉ (jsSplitPop v).data ∧
      (v.data = (jsSplitPop v).data ∨
        ∃ p, v.data = p ++ '/' :: (jsSplitPop v).data) :=
  jsSplit_getLastD_spec v.data

/-- C7 counterexample: the claim asserts that for a value whose derived key
is empty (e.g. one ending in `'/'`) no retrieval is performed for that key;
but the handler has no empty-key guard — on value `"s3://bucket/"` it calls
`getFile` with the empty key. -/
theorem C7_counterexample :
    jsSplitPop "s3://bucket/" = "" ∧
      getFileCalls (handleMessage envMissing (some "s3://bucket/")).1 = [""] :=
  ⟨rfl, rfl⟩

/-- C7 (amended): a value whose derived key is empty is not specially
guarded: the handler still invokes the retrieval client once with the empty
key; when that retrieval reports not-found or throws, the message is
dropped with exactly one error log and no send. -/
theorem C7_empty_key_dropped (env : Env) (v : String) (hv : ¬ v = "")
    (hk : jsSplitPop v = "")
    (hf : env.getFile "" = .ok none ∨ ∃ e, env.getFile "" = .error e) :
    getFileCalls (handleMessage env (some v)).1 = [""] ∧
      sends (handleMessage env (some v)).1 = [] ∧
      (errorLogs (handleMessage env (some v)).1).length = 1 := by
  rcases hf with hf | ⟨e, hf⟩ <;>
    simp [handleMessage, tryBody, hv, hk, hf, getFileCalls, sends, errorLogs]

/-- C7 witness: value `"s3://bucket/"` against the empty store: one
retrieval with the empty key, no send, one error log. -/
theorem C7_empty_key_dropped_witness :
    getFileCalls (handleMessage envMissing (some "s3://bucket/")).1 = [""] ∧
      sends (handleMessage envMissing (some "s3://bucket/")).1 = [] ∧
      (errorLogs (handleMessage envMissing (some "s3://bucket/")).1).length = 1 :=
  C7_empty_key_dropped envMissing "s3://bucket/" (by decide) rfl (Or.inl rfl)

/-- C8: redelivering the same message against the same store state yields
two identical handler traces (the handler is a function of the message
value and the environment and keeps no state between invocations), each
containing the same single successful send. -/
theorem C8_redelivery_idempotent (env : Env) (v : String) (B : Bytes)
    (md : FileMetadata) (hv : ¬ v = "")
    (hf : env.getFile (jsSplitPop v) = .ok (some B))
    (hm : env.getFileMetadata (jsSplitPop v) = .ok (some md))
    (hs : env.sendIFCFile ⟨md.project, md.filename, md.timestamp, B⟩ = .ok ()) :
    runConsumer env [some v, some v] =
      [(handleMessage env (some v)).1, (handleMessage env (some v)).1] ∧
      sends (handleMessage env (some v)).1 =
        [⟨md.project, md.filename, md.timestamp, B⟩] := by
  refine ⟨rfl, ?_⟩
  rw [handleMessage_success env v hv B md hf hm, hs]
  simp [sends]

/-- C8 witness: the success scenario delivered twice. -/
theorem C8_redelivery_idempotent_witness :
    runConsumer envScenario [some "s3://bucket/abc123", some "s3://bucket/abc123"] =
      [(handleMessage envScenario (some "s3://bucket/abc123")).1,
       (handleMessage envScenario (some "s3://bucket/abc123")).1] ∧
      sends (handleMessage envScenario (some "s3://bucket/abc123")).1 =
        [⟨"P1", "model.ifc", "2024-01-01T00:00:00Z", [66]⟩] :=
  C8_redelivery_idempotent envScenario "s3://bucket/abc123" [66]
    { project := "P1", filename := "model.ifc",
      timestamp := "2024-01-01T00:00:00Z" }
    (by decide) rfl rfl rfl

/-- Modelled from the spec: `setupKafkaConsumer` and `startKafkaConsumer`
live in `src/qto_ifc-msg/src/kafka.ts`, which is not part of this snapshot.
Per the spec the consumer establishes its subscription before any delivery
and propagates a fatal bootstrap error; so the bootstrap is modelled by the
outcome of consumer setup, the outcome of subscription establishment, and
the messages the broker delivers after a successful subscription. -/
structure KafkaEnv where
  setupResult : Outcome Unit
  subscribeResult : Outcome Unit
  delivered : List (Option String)

/-- The `main` function of `index.ts` (lines 24–59): awaits
`setupKafkaConsumer`, then `startKafkaConsumer` with the message handler.
A rejection of either await propagates out of `main` (line 62–64 then has
`main().catch(log.error)` receive it); on success the handler runs on each
delivered message. -/
def main (kenv : KafkaEnv) (env : Env) : Outcome (List (List Event)) :=
  match kenv.setupResult with
  | .error e => .error e
  | .ok _ =>
    match kenv.subscribeResult with
    | .error e => .error e
    | .ok _ => .ok (runConsumer env kenv.delivered)

/-- C9: if consumer setup or subscription establishment rejects, `main`
propagates that very error (no retry, no swallowing at this layer) and no
message-handler invocation ever occurs (no trace list is produced). -/
theorem C9_bootstrap_failure_fatal (kenv : KafkaEnv) (env : Env) (e : String)
    (h : kenv.setupResult = .error e ∨
      (kenv.setupResult = .ok () ∧ kenv.subscribeResult = .error e)) :
    main kenv env = .error e ∧
      ∀ traces, ¬ main kenv env = .ok traces := by
  have hmain : main kenv env = .error e := by
    rcases h with h | ⟨h1, h2⟩
    · simp [main, h]
    · simp [main, h1, h2]
  exact ⟨hmain, fun traces hcon => by rw [hmain] at hcon; cases hcon⟩

/-- C9 witness: a setup rejection with a connection error is propagated and
no handler trace is produced, even with messages pending. -/
theorem C9_bootstrap_failure_fatal_witness :
    main ⟨.error "ECONNREFUSED", .ok (), [some "s3://bucket/abc123"]⟩ envScenario =
      .error "ECONNREFUSED" ∧
      ∀ traces, ¬ main ⟨.error "ECONNREFUSED", .ok (), [some "s3://bucket/abc123"]⟩
          envScenario = .ok traces :=
  C9_bootstrap_failure_fatal
    ⟨.error "ECONNREFUSED", .ok (), [some "s3://bucket/abc123"]⟩
    envScenario "ECONNREFUSED" (Or.inl rfl)

/-- C10: for every successfully retrieved message the record passed to the
downstream sender is exactly the four-field record {project, filename,
timestamp, file} copied from the retrieved metadata and content — whatever
extra fields the metadata record carries are not forwarded, and this holds
whether or not the send itself then succeeds. -/
theorem C10_record_has_exactly_four_fields (env : Env) (v : String)
    (B : Bytes) (md : FileMetadata) (hv : ¬ v = "")
    (hf : env.getFile (jsSplitPop v) = .ok (some B))
    (hm : env.getFileMetadata (jsSplitPop v) = .ok (some md)) :
    sends (handleMessage env (some v)).1 =
      [{ project := md.project, filename := md.filename,
         timestamp := md.timestamp, file := B }] := by
  rw [handleMessage_success env v hv B md hf hm]
  cases env.sendIFCFile ⟨md.project, md.filename, md.timestamp, B⟩ <;> simp [sends]

/-- C10 witness: metadata carrying an extra field `uploader` is forwarded
as the bare four-field record without it. -/
theorem C10_record_has_exactly_four_fields_witness :
    sends (handleMessage
      { getFile := fun _ => .ok (some [9, 9])
        getFileMetadata := fun _ =>
          .ok (some { project := "P2", filename := "a.ifc",
                      timestamp := "2024-02-02T00:00:00Z",
                      extra := [("uploader", "alice")] })
        sendIFCFile := fun _ => .ok () } (some "bucket/k1")).1 =
      [{ project := "P2", filename := "a.ifc",
         timestamp := "2024-02-02T00:00:00Z", file := [9, 9] }] :=
  C10_record_has_exactly_four_fields
    { getFile := fun _ => .ok (some [9, 9])
      getFileMetadata := fun _ =>
        .ok (some { project := "P2", filename := "a.ifc",
                    timestamp := "2024-02-02T00:00:00Z",
                    extra := [("uploader", "alice")] })
      sendIFCFile := fun _ => .ok () } "bucket/k1" [9, 9]
    { project := "P2", filename := "a.ifc",
      timestamp := "2024-02-02T00:00:00Z", extra := [("uploader", "alice")] }
    (by decide) rfl rfl

end QtoIfcMsg
